import Mathlib

/-!
Shallow embedding of the planter_pressure repository:
`src/python/process.py` (image processing pipeline) and
`src/native_engine/build_assets.py` (packaging helper).

External effects (filesystem tests, the imaging library, fonts, the clock)
are modelled by an explicit environment of oracle functions; every library
call that can raise in Python returns `Except PyExc` or `Option PyExc`.
Calls into the imaging library are abstract: the embedding records which
operation was performed (as an `Event` trace) and lets the environment
choose the resulting image or an exception.
-/

namespace PlanterPressure

/-- A Python exception, as observed by the handlers in `process.py`:
`name` models `type(e).__name__` and `msg` models `str(e)`. -/
structure PyExc where
  name : String
  msg : String
deriving DecidableEq, Repr

/-- The PIL color modes that `process.py` distinguishes (values of `img.mode`). -/
inductive Mode
  | RGB
  | RGBA
  | LA
  | P
  | other (m : String)
deriving DecidableEq, Repr

/-- String form of a mode, as Python stores it in `img.mode`. -/
def Mode.str : Mode → String
  | .RGB => "RGB"
  | .RGBA => "RGBA"
  | .LA => "LA"
  | .P => "P"
  | .other m => m

/-- Abstract PIL image: just the attributes `process.py` reads
(`img.size` and `img.mode`); pixel data stays abstract. -/
structure Img where
  width : Nat
  height : Nat
  mode : Mode
deriving DecidableEq, Repr

/-- A loaded font resource is abstract; only its identity matters
to the cache in `ImageProcessor._get_font`. -/
abbrev Font := Nat

/-- Value of `datetime.now()`: the calendar fields that the
`"%Y%m%d_%H%M%S_%f"` format string of `_generate_output_path` reads. -/
@[ext]
structure DateTime where
  year : Nat
  month : Nat
  day : Nat
  hour : Nat
  minute : Nat
  second : Nat
  micro : Nat
deriving DecidableEq, Repr

/-- Fixed-width zero-padded decimal rendering, big endian: the digit list
of `n % 10 ^ w` padded to exactly `w` digits.  This models the zero padded
numeric directives of `strftime` (`%Y` `%m` `%d` `%H` `%M` `%S` `%f`) for
in-range field values. -/
def padDigits : Nat → Nat → List Char
  | 0, _ => []
  | w + 1, n => padDigits w (n / 10) ++ [Nat.digitChar (n % 10)]

/-- The timestamp `datetime.now().strftime("%Y%m%d_%H%M%S_%f")`
used in `ImageProcessor._generate_output_path`. -/
def strftimeTs (t : DateTime) : String :=
  ⟨padDigits 4 t.year ++ padDigits 2 t.month ++ padDigits 2 t.day ++ '_' ::
    (padDigits 2 t.hour ++ padDigits 2 t.minute ++ padDigits 2 t.second ++ '_' ::
      padDigits 6 t.micro)⟩

/-- Index of the last occurrence of a dot in a character list
(`name.rfind(".")` restricted to the found case). -/
def lastDot : List Char → Option Nat
  | [] => none
  | c :: cs =>
    match lastDot cs with
    | some i => some (i + 1)
    | none => if c = '.' then some 0 else none

/-- Split a character list at path separators, keeping empty pieces
(structural recursion, `acc` holds the current piece reversed). -/
def splitSeps : List Char → List Char → List String
  | [], acc => [⟨acc.reverse⟩]
  | c :: cs, acc =>
    if c = '/' ∨ c = '\\' then ⟨acc.reverse⟩ :: splitSeps cs []
    else splitSeps cs (c :: acc)

/-- ASCII lowercasing of a string, modelling `str.lower` on the ASCII
extensions the source compares. -/
def lowerStr (s : String) : String := ⟨s.data.map Char.toLower⟩

/-- Final path component, modelling `pathlib.PurePath.name`: the last
nonempty piece after splitting on the path separators (the source targets
Windows, where both slash and backslash separate components). -/
def pathName (p : String) : String :=
  ((splitSeps p.data []).filter fun s => s != "").getLastD ""

/-- Extension of the final component, modelling `pathlib.PurePath.suffix`:
the part of the name from its last dot on, provided that dot is neither the
first nor the last character of the name; otherwise the empty string. -/
def pathSuffix (p : String) : String :=
  let name := pathName p
  match lastDot name.data with
  | some i => if 0 < i ∧ i < name.length - 1 then ⟨name.data.drop i⟩ else ""
  | none => ""

/-- Final component without its suffix, modelling `pathlib.PurePath.stem`. -/
def pathStem (p : String) : String :=
  let name := pathName p
  match lastDot name.data with
  | some i => if 0 < i ∧ i < name.length - 1 then ⟨name.data.take i⟩ else name
  | none => name

/-- The extension allow-list `ImageProcessor.SUPPORTED_FORMATS`. -/
def SUPPORTED_FORMATS : List String :=
  [".png", ".jpg", ".jpeg", ".gif", ".bmp", ".webp", ".tiff"]

/-- JSON values as decoded by `json.loads`.  Numbers are modelled as
integers only (non-integral JSON numbers decode to Python floats, which a
shallow embedding does not model); no claim depends on float fields. -/
inductive Json
  | null
  | bool (b : Bool)
  | num (n : Int)
  | str (s : String)
  | arr (elems : List Json)
  | obj (fields : List (String × Json))

/-- Python truthiness (`if not x`) of a decoded JSON value: `None`, `False`,
zero, the empty string and empty containers are falsy. -/
def Json.truthy : Json → Bool
  | .null => false
  | .bool b => b
  | .num n => n != 0
  | .str s => s != ""
  | .arr elems => !elems.isEmpty
  | .obj fields => !fields.isEmpty

/-- Python type name of a decoded JSON value, as it appears in
`TypeError` messages raised by `os.path` functions. -/
def Json.typeName : Json → String
  | .null => "NoneType"
  | .bool _ => "bool"
  | .num _ => "int"
  | .str _ => "str"
  | .arr _ => "list"
  | .obj _ => "dict"

/-- `"{}".format(v)` for the decoded JSON values that can reach a message
format site in `_validate_input` (strings, ints and bools do; lists and
dicts raise a `TypeError` first). -/
def Json.pyFormat : Json → String
  | .null => "None"
  | .bool b => if b then "True" else "False"
  | .num n => toString n
  | .str s => s
  | .arr _ => "list"
  | .obj _ => "dict"

/-- `dict.get` on the dictionary produced by `json.loads` for a JSON
object: with duplicate keys the last occurrence wins. -/
def dictGet (fields : List (String × Json)) (k : String) : Option Json :=
  fields.reverse.lookup k

/-- The imaging library operations that `ImageProcessor.process` invokes,
in the source's vocabulary. -/
inductive LibOp
  | compositeWhite (m : Mode)
  | convertRGB
  | sharpness
  | edgeEnhance
  | contrast
  | smooth
deriving DecidableEq, Repr

/-- Observable effects performed by one invocation, in order. -/
inductive Event
  | opened (path : String)
  | applied (op : LibOp)
  | measuredText (text : String) (fontSize : Nat)
  | drewShadow (text : String) (fill : Nat × Nat × Nat)
  | drewMain (text : String) (fill : Nat × Nat × Nat)
  | madeDirs (dir : String)
  | saved (path : String) (format : String)
deriving DecidableEq, Repr

/-- Oracle environment: the operating system, the imaging library, fonts
and the clock.  Fallible Python calls return `Except PyExc` / `Option PyExc`
so the environment chooses both results and raised exceptions. -/
structure Env where
  pilAvailable : Bool
  pilError : String
  pathExists : String → Bool
  pathIsFile : String → Bool
  fdExists : Int → Bool
  fdIsFile : Int → Bool
  tmpdir : String
  now : DateTime
  isoNow : String
  loadFont : Nat → Font
  openImage : String → Except PyExc Img
  applyLib : LibOp → Img → Except PyExc Img
  textbbox : String → Font → Img → Except PyExc (Int × Int × Int × Int)
  drawShadow : Int × Int → String → Font → Nat → Option PyExc
  drawMain : Int × Int → String → Font → Option PyExc
  makedirs : String → Option PyExc
  save : String → String → Option PyExc
  getsize : String → Except PyExc Nat

/-- The font cache `self._font_cache`: a mapping from requested size to
the loaded font, represented as an association list with distinct keys
(entries are only added for sizes not already present). -/
abbrev FontCache := List (Nat × Font)

/-- `ImageProcessor._get_font`: return the cached font for `size` if
present; otherwise load a font (path probing with fallback to the default
font never raises: every exception is swallowed by the bare `except`),
clear the whole cache if it holds more than 10 entries, and insert. -/
def get_font (env : Env) (cache : FontCache) (size : Nat) : Font × FontCache :=
  match cache.lookup size with
  | some f => (f, cache)
  | none =>
    let font := env.loadFont size
    let cache1 := if cache.length > 10 then [] else cache
    (font, (size, font) :: cache1)

/-- `ImageProcessor._validate_input`: returns `(ok, message)`. -/
def validate_input (env : Env) (path : String) : Bool × String :=
  if path = "" then (false, "Empty path")
  else if env.pathExists path = false then (false, "File not found: " ++ path)
  else if env.pathIsFile path = false then (false, "Not a file: " ++ path)
  else
    let ext := lowerStr (pathSuffix path)
    if ext ∈ SUPPORTED_FORMATS then (true, "") else (false, "Unsupported format: " ++ ext)

/-- Filename part generated by `ImageProcessor._generate_output_path`:
`"processed_{stem}_{timestamp}.png"`. -/
def outputName (inputPath : String) (t : DateTime) : String :=
  "processed_" ++ pathStem inputPath ++ "_" ++ strftimeTs t ++ ".png"

/-- `os.path.join` for a directory with no trailing separator; the source
only ever joins a directory with a fresh relative file name. -/
def joinPath (dir name : String) : String := dir ++ "/" ++ name

/-- `ImageProcessor._generate_output_path`.  The `output_dir` argument is
the decoded JSON value handed through `process`; Python `None` (absent or
JSON `null`) is `none`.  `os.makedirs` on a non-path value raises
`TypeError`; on a string the environment decides (OS errors). -/
def generate_output_path (env : Env) (inputPath : String) (outputDir : Option Json) :
    Except PyExc String × List Event :=
  let dirOf : Option String :=
    match outputDir with
    | none => some env.tmpdir
    | some (Json.str s) => some s
    | some _ => none
  match dirOf with
  | none =>
    (Except.error ⟨"TypeError",
      "makedirs: path should be string, bytes or os.PathLike"⟩, [])
  | some dir =>
    match env.makedirs dir with
    | some e => (Except.error e, [])
    | none => (Except.ok (joinPath dir (outputName inputPath env.now)), [Event.madeDirs dir])

/-- The RGB normalization step of `ImageProcessor.process`: RGBA, LA and
palette images are composited onto a white background (modelled as one
fallible library operation covering `Image.new`/`split`/`paste`); any other
non-RGB mode goes through `convert("RGB")`; RGB passes through. -/
def convertStep (env : Env) (img : Img) : Except PyExc Img × List Event :=
  if img.mode = .RGBA ∨ img.mode = .LA ∨ img.mode = .P then
    match env.applyLib (.compositeWhite img.mode) img with
    | .error e => (.error e, [])
    | .ok i => (.ok i, [Event.applied (.compositeWhite img.mode)])
  else if img.mode ≠ .RGB then
    match env.applyLib .convertRGB img with
    | .error e => (.error e, [])
    | .ok i => (.ok i, [Event.applied .convertRGB])
  else (.ok img, [])

/-- One enhancement/filter call of the fixed chain in
`ImageProcessor.process`. -/
def filterStep (env : Env) (op : LibOp) (img : Img) : Except PyExc Img × List Event :=
  match env.applyLib op img with
  | .error e => (.error e, [])
  | .ok i => (.ok i, [Event.applied op])

/-- The watermark text drawn by `ImageProcessor.process`. -/
def watermark : String := "PLANTER PRESSURE DEMO"

/-- `font_size = max(24, min(300, int(height * 0.10)))`; the float
multiplication and truncation is modelled as Nat floor division by 10. -/
def fontSizeFor (height : Nat) : Nat := max 24 (min 300 (height / 10))

/-- Successful outcome metadata of `ImageProcessor.process`
(the `"metadata"` dictionary). -/
structure Metadata where
  inputPath : String
  originalSize : Nat × Nat
  originalMode : String
  outputSizeBytes : Nat
  processedAt : String
deriving DecidableEq, Repr

/-- The result dictionary of `ImageProcessor.process`: a status tag plus
the keys that the corresponding `return` site sets (`none` models an
absent key). -/
structure PResult where
  status : String
  error : Option String := none
  errorType : Option String := none
  outputImagePath : Option String := none
  metadata : Option Metadata := none
deriving DecidableEq, Repr

/-- The body of the `try` block of `ImageProcessor.process`, from
`Image.open` to the success dictionary: the first raising call aborts with
its exception.  Also returns the trace of completed effects and the
(threaded) font cache. -/
def runPipeline (env : Env) (cache : FontCache) (inputPath : String)
    (outputDir : Option Json) : Except PyExc PResult × List Event × FontCache :=
  match env.openImage inputPath with
  | .error e => (.error e, [], cache)
  | .ok img0 =>
    let originalSize := (img0.width, img0.height)
    let originalMode := img0.mode.str
    match convertStep env img0 with
    | (.error e, ev) => (.error e, Event.opened inputPath :: ev, cache)
    | (.ok img1, ev1) =>
      match filterStep env .sharpness img1 with
      | (.error e, ev) => (.error e, Event.opened inputPath :: ev1 ++ ev, cache)
      | (.ok img2, ev2) =>
        match filterStep env .edgeEnhance img2 with
        | (.error e, ev) => (.error e, Event.opened inputPath :: ev1 ++ ev2 ++ ev, cache)
        | (.ok img3, ev3) =>
          match filterStep env .contrast img3 with
          | (.error e, ev) =>
            (.error e, Event.opened inputPath :: ev1 ++ ev2 ++ ev3 ++ ev, cache)
          | (.ok img4, ev4) =>
            match filterStep env .smooth img4 with
            | (.error e, ev) =>
              (.error e, Event.opened inputPath :: ev1 ++ ev2 ++ ev3 ++ ev4 ++ ev, cache)
            | (.ok img5, ev5) =>
              let evs := Event.opened inputPath :: ev1 ++ ev2 ++ ev3 ++ ev4 ++ ev5
              let width := img5.width
              let height := img5.height
              let fontSize := fontSizeFor height
              let (font, cache1) := get_font env cache fontSize
              match env.textbbox watermark font img5 with
              | .error e => (.error e, evs, cache1)
              | .ok (b0, b1, b2, b3) =>
                let textW := b2 - b0
                let textH := b3 - b1
                let x := Int.fdiv ((width : Int) - textW) 2
                let y := Int.fdiv ((height : Int) - textH) 2
                let evs := evs ++ [Event.measuredText watermark fontSize]
                let shadowOff := max 3 (fontSize / 20)
                match env.drawShadow (x, y) watermark font shadowOff with
                | some e => (.error e, evs, cache1)
                | none =>
                  let evs := evs ++ [Event.drewShadow watermark (0, 0, 0)]
                  match env.drawMain (x, y) watermark font with
                  | some e => (.error e, evs, cache1)
                  | none =>
                    let evs := evs ++ [Event.drewMain watermark (255, 0, 0)]
                    match generate_output_path env inputPath outputDir with
                    | (.error e, gev) => (.error e, evs ++ gev, cache1)
                    | (.ok outputPath, gev) =>
                      let evs := evs ++ gev
                      match env.save outputPath "PNG" with
                      | some e => (.error e, evs, cache1)
                      | none =>
                        let evs := evs ++ [Event.saved outputPath "PNG"]
                        match env.getsize outputPath with
                        | .error e => (.error e, evs, cache1)
                        | .ok outputSize =>
                          (.ok { status := "success",
                                 outputImagePath := some outputPath,
                                 metadata := some { inputPath := inputPath,
                                                    originalSize := originalSize,
                                                    originalMode := originalMode,
                                                    outputSizeBytes := outputSize,
                                                    processedAt := env.isoNow } },
                           evs, cache1)

/-- `ImageProcessor.process` on a string path: the PIL availability check,
then input validation, then the `try` block whose exceptions are caught
once at the top level and turned into an error dictionary carrying
`str(e)` and `type(e).__name__`. -/
def process (env : Env) (cache : FontCache) (inputPath : String)
    (outputDir : Option Json) : PResult × List Event × FontCache :=
  if env.pilAvailable = false then
    ({ status := "error", error := some ("Pillow not available: " ++ env.pilError) },
     [], cache)
  else
    match validate_input env inputPath with
    | (false, err) => ({ status := "error", error := some err }, [], cache)
    | (true, _) =>
      match runPipeline env cache inputPath outputDir with
      | (.ok r, ev, cache1) => (r, ev, cache1)
      | (.error e, ev, cache1) =>
        ({ status := "error", error := some ("Processing failed: " ++ e.msg),
           errorType := some e.name }, ev, cache1)

/-- `ImageProcessor.process` invoked with a decoded JSON value as first
argument, as `process_image_json` does.  Python is dynamically typed:
a string argument follows `process`; for any other value the PIL check
still runs first, then `_validate_input` evaluates `not path` (Python
truthiness), then `os.path.exists(path)` either treats the value as a file
descriptor (ints, and bools as the ints 0/1) or raises `TypeError`
(lists, dicts); a descriptor that exists and is a regular file then
reaches `Path(path)`, which raises `TypeError` for non-path types.
Exceptions escape here uncaught: `_validate_input` runs before the
`try` block of `process`. -/
def processDyn (env : Env) (cache : FontCache) (v : Json) (outputDir : Option Json) :
    Except PyExc (PResult × List Event × FontCache) :=
  match v with
  | .str s => .ok (process env cache s outputDir)
  | _ =>
    if env.pilAvailable = false then
      .ok ({ status := "error", error := some ("Pillow not available: " ++ env.pilError) },
           [], cache)
    else if v.truthy = false then
      .ok ({ status := "error", error := some "Empty path" }, [], cache)
    else
      let asFd : Option Int :=
        match v with
        | .num n => some n
        | .bool b => some (if b then 1 else 0)
        | _ => none
      match asFd with
      | some fd =>
        if env.fdExists fd = false then
          .ok ({ status := "error", error := some ("File not found: " ++ v.pyFormat) },
               [], cache)
        else if env.fdIsFile fd = false then
          .ok ({ status := "error", error := some ("Not a file: " ++ v.pyFormat) },
               [], cache)
        else
          .error ⟨"TypeError",
            "argument should be a str or an os.PathLike object, not " ++ v.typeName⟩
      | none =>
        .error ⟨"TypeError",
          "stat: path should be string, bytes, os.PathLike or integer, not " ++ v.typeName⟩

/-- The metadata dictionary as serialized by `json.dumps`. -/
def metadataToJson (m : Metadata) : Json :=
  Json.obj [("input_path", Json.str m.inputPath),
            ("original_size", Json.arr [Json.num m.originalSize.1, Json.num m.originalSize.2]),
            ("original_mode", Json.str m.originalMode),
            ("output_size_bytes", Json.num m.outputSizeBytes),
            ("processed_at", Json.str m.processedAt)]

/-- The result dictionary of `process` as a JSON object, with exactly the
keys the corresponding `return` site sets, in source order. -/
def presultToJson (r : PResult) : Json :=
  Json.obj ([("status", Json.str r.status)]
    ++ (match r.outputImagePath with
        | some p => [("output_image_path", Json.str p)]
        | none => [])
    ++ (match r.metadata with
        | some m => [("metadata", metadataToJson m)]
        | none => [])
    ++ (match r.error with
        | some e => [("error", Json.str e)]
        | none => [])
    ++ (match r.errorType with
        | some t => [("error_type", Json.str t)]
        | none => []))

/-- Whether a serialized response is a JSON object carrying a
`"status"` field. -/
def hasStatusField : Json → Bool
  | .obj fields => fields.any fun kv => kv.1 == "status"
  | _ => false

/-- Outcome of `process_image_json`: the response (or an escaped
exception) and whether the processor was invoked at all. -/
structure PijOut where
  result : Except PyExc Json
  invokedProcessor : Bool

/-- `process_image_json`, from the point where `json.loads` has produced
a JSON object (the claims in scope quantify over inputs that parse as
objects; serialization by `json.dumps` is modelled as returning the
object itself).  `data.get("input_image_path")` is `None` when absent;
`if not input_path` catches every falsy value; otherwise the (module
singleton) processor is invoked with the decoded values. -/
def process_image_json (env : Env) (cache : FontCache)
    (data : List (String × Json)) : PijOut :=
  let missing : Json :=
    Json.obj [("status", Json.str "error"), ("error", Json.str "Missing input_image_path")]
  match dictGet data "input_image_path" with
  | none => { result := .ok missing, invokedProcessor := false }
  | some v =>
    if v.truthy = false then
      { result := .ok missing, invokedProcessor := false }
    else
      let outputDir : Option Json :=
        match dictGet data "output_dir" with
        | none => none
        | some .null => none
        | some w => some w
      match processDyn env cache v outputDir with
      | .error e => { result := .error e, invokedProcessor := true }
      | .ok (r, _, _) => { result := .ok (presultToJson r), invokedProcessor := true }

/-!  The packaging helper `src/native_engine/build_assets.py`. -/

/-- Filesystem state that `build_assets` reads and mutates: existing
regular files, existing directories, and archives on disk (an archive maps
to its entry names; creating an archive with `zipfile.ZipFile(..., "w")`
replaces any archive at that path). -/
structure BFS where
  files : List String
  dirs : List String
  zips : List (String × List String)
deriving DecidableEq, Repr

/-- `Path.exists` against the modelled filesystem (archives are regular
files on disk, kept separately so entry counts are observable). -/
def BFS.exists0 (fs : BFS) (p : String) : Bool :=
  fs.files.contains p || fs.dirs.contains p || (fs.zips.map Prod.fst).contains p

/-- Add a path to a set-like listing. -/
def insertNew (p : String) (l : List String) : List String :=
  if l.contains p then l else p :: l

/-- Environment of `build_assets`: path resolution (`Path.resolve`, which
depends on the working directory) and the compiler verdict
(`py_compile.compile(..., doraise=True)` raises on a source error; `some
msg` is the raised exception's string form). -/
structure BEnv where
  resolve : String → String
  compileResult : String → Option String

/-- `build_assets(input_py, output_dir)`: returns the `sys.exit` code if
any (`none` is a normal return), the final filesystem, and the printed
lines in order.  Steps mirror the source: resolve both paths, existence
check (exit 1), `mkdir(parents=True, exist_ok=True)`, compile to
`image_processor.pyc` (exit 1 on failure), write `app_modules.zip` with
the single entry, unlink the intermediate `.pyc`. -/
def build_assets (env : BEnv) (fs : BFS) (inputPy outputDir : String) :
    Option Nat × BFS × List String :=
  let inputPath := env.resolve inputPy
  let outputPath := env.resolve outputDir
  if fs.exists0 inputPath = false then
    (some 1, fs, ["Error: Input file " ++ inputPath ++ " does not exist"])
  else
    let fs1 : BFS := { fs with dirs := insertNew outputPath fs.dirs }
    let pycFilename := "image_processor.pyc"
    let tempPyc := outputPath ++ "/" ++ pycFilename
    let prints1 := ["Compiling " ++ inputPath ++ " -> " ++ tempPyc ++ "..."]
    match env.compileResult inputPath with
    | some e => (some 1, fs1, prints1 ++ ["Compilation failed: " ++ e])
    | none =>
      let fs2 : BFS := { fs1 with files := insertNew tempPyc fs1.files }
      let zipFilename := outputPath ++ "/app_modules.zip"
      let prints2 := prints1 ++ ["Creating " ++ zipFilename ++ "..."]
      let fs3 : BFS :=
        { fs2 with zips := (zipFilename, [pycFilename]) ::
            fs2.zips.filter fun z => z.1 != zipFilename }
      let fs4 : BFS :=
        if fs3.files.contains tempPyc then
          { fs3 with files := fs3.files.filter fun f => f != tempPyc }
        else fs3
      (none, fs4, prints2 ++ ["Success! Created app_modules.zip"])

/-- Every character of the list is a decimal digit. -/
def allDigits (l : List Char) : Prop := ∀ c ∈ l, c.isDigit

/-- Following the words of the spec: an output file name of the form
`processed_<stem>_<YYYYMMDD_HHMMSS_microseconds>.png`, that is,
8 date digits, an underscore, 6 time digits, an underscore and
6 microsecond digits between the fixed prefix and extension. -/
def specOutputName (stem name : String) : Prop :=
  ∃ date time us : List Char,
    date.length = 8 ∧ time.length = 6 ∧ us.length = 6 ∧
    allDigits date ∧ allDigits time ∧ allDigits us ∧
    name.data = ("processed_" ++ stem ++ "_").data ++
      (date ++ '_' :: (time ++ '_' :: us)) ++ ".png".data

/-- Calendar fields small enough for their zero-padded `strftime`
directives (true of every value `datetime.now()` can produce). -/
def DateTime.wf (t : DateTime) : Prop :=
  t.year < 10000 ∧ t.month < 100 ∧ t.day < 100 ∧ t.hour < 100 ∧
  t.minute < 100 ∧ t.second < 100 ∧ t.micro < 1000000

/-- Repeated calls to `_get_font`, threading the cache, one per requested
size. -/
def applyGetFonts (env : Env) : FontCache → List Nat → FontCache
  | cache, [] => cache
  | cache, s :: rest => applyGetFonts env (get_font env cache s).2 rest

/-- A concrete environment in which every external call succeeds. -/
def envT : Env :=
  { pilAvailable := true
    pilError := ""
    pathExists := fun _ => true
    pathIsFile := fun _ => true
    fdExists := fun _ => false
    fdIsFile := fun _ => false
    tmpdir := "/tmp"
    now := ⟨2026, 10, 12, 13, 14, 15, 123456⟩
    isoNow := "2026-10-12T13:14:15.123457"
    loadFont := fun n => n
    openImage := fun _ => .ok ⟨640, 480, .RGB⟩
    applyLib := fun _ i => .ok i
    textbbox := fun _ _ _ => .ok (0, 0, 200, 40)
    drawShadow := fun _ _ _ _ => none
    drawMain := fun _ _ _ => none
    makedirs := fun _ => none
    save := fun _ _ => none
    getsize := fun _ => .ok 4321 }

/-- Like `envT` but no path exists on disk. -/
def envMissing : Env :=
  { envT with pathExists := fun _ => false, pathIsFile := fun _ => false }

/-- Like `envT` but `Image.open` raises. -/
def envOpenFail : Env :=
  { envT with
    openImage := fun _ => .error ⟨"UnidentifiedImageError", "cannot identify image file"⟩ }

/-- A font cache holding 11 entries (the size the source cache can reach). -/
def cacheBig : FontCache := (List.range 11).map fun i => (i + 100, i)

/-- Packaging environment: identity resolution, compilation succeeds. -/
def benvT : BEnv := { resolve := fun s => s, compileResult := fun _ => none }

/-- Packaging environment in which `py_compile` raises. -/
def benvFail : BEnv :=
  { resolve := fun s => s, compileResult := fun _ => some "invalid source (m.py, line 3)" }

/-- A filesystem holding just the source file to package. -/
def bfsT : BFS := { files := ["m.py"], dirs := [], zips := [] }

/-- The empty filesystem. -/
def bfs0 : BFS := { files := [], dirs := [], zips := [] }

/-!  Helper lemmas (shared). -/

/-- Two strings with distinct first characters differ. -/
lemma ne_of_first_char {a b : String} {ca cb : Char} (ha : a.data.take 1 = [ca])
    (hb : b.data.take 1 = [cb]) (hc : ca ≠ cb) : a ≠ b := by
  intro h
  apply hc
  have h2 : a.data.take 1 = b.data.take 1 := by rw [h]
  rw [ha, hb] at h2
  exact (List.cons.inj h2).1

/-- `process` on the empty path: validation fails with `"Empty path"`,
nothing is done. -/
lemma process_empty_path (env : Env) (cache : FontCache) (od : Option Json)
    (hpil : env.pilAvailable = true) :
    process env cache "" od = ({ status := "error", error := some "Empty path" }, [], cache) := by
  simp [process, validate_input, hpil]

/-- `process` on a nonempty path that does not exist. -/
lemma process_not_found (env : Env) (cache : FontCache) (p : String) (od : Option Json)
    (hpil : env.pilAvailable = true) (hne : p ≠ "") (hex : env.pathExists p = false) :
    process env cache p od =
      ({ status := "error", error := some ("File not found: " ++ p) }, [], cache) := by
  simp [process, validate_input, hpil, hne, hex]

/-- `process` on an existing path that is not a regular file. -/
lemma process_not_file (env : Env) (cache : FontCache) (p : String) (od : Option Json)
    (hpil : env.pilAvailable = true) (hne : p ≠ "") (hex : env.pathExists p = true)
    (hfile : env.pathIsFile p = false) :
    process env cache p od =
      ({ status := "error", error := some ("Not a file: " ++ p) }, [], cache) := by
  simp [process, validate_input, hpil, hne, hex, hfile]

/-- `process` on an existing regular file with an unsupported extension. -/
lemma process_bad_ext (env : Env) (cache : FontCache) (p : String) (od : Option Json)
    (hpil : env.pilAvailable = true) (hne : p ≠ "") (hex : env.pathExists p = true)
    (hfile : env.pathIsFile p = true)
    (hext : lowerStr (pathSuffix p) ∉ SUPPORTED_FORMATS) :
    process env cache p od =
      ({ status := "error",
         error := some ("Unsupported format: " ++ lowerStr (pathSuffix p)) }, [], cache) := by
  simp [process, validate_input, hpil, hne, hex, hfile, hext]

/-- One `_get_font` call keeps the cache within its bound. -/
lemma get_font_length_le (env : Env) (cache : FontCache) (s : Nat)
    (hc : cache.length ≤ 11) : ((get_font env cache s).2).length ≤ 11 := by
  simp only [get_font]
  cases hl : cache.lookup s with
  | some f => simpa using hc
  | none =>
    by_cases h10 : cache.length > 10
    · simp [h10]
    · simp [h10]
      omega

/-!  Claim theorems. -/

/-- Claim C1, counterexample: for the path `"input.txt"` — an unsupported
extension — in an environment where the file does not exist, `process`
reports `"File not found"`, not the unsupported format; so the reported
error is not independent of whether the file exists. -/
theorem C1_counterexample :
    lowerStr (pathSuffix "input.txt") ∉ SUPPORTED_FORMATS ∧
    (process envMissing [] "input.txt" none).1 =
      { status := "error", error := some "File not found: input.txt" } ∧
    (process envMissing [] "input.txt" none).1.error ≠
      some ("Unsupported format: " ++ lowerStr (pathSuffix "input.txt")) := by
  exact ⟨by decide, rfl, by decide⟩

/-- Claim C1, amended: for every nonempty input path that exists and is a
regular file, if its lowercased extension is not in the supported set then
`process` returns an error result citing the unsupported format (and
performs no effect); when the file is missing, the file-not-found error
takes precedence. -/
theorem C1_unsupported_format (env : Env) (cache : FontCache) (p : String) (od : Option Json)
    (hpil : env.pilAvailable = true) (hne : p ≠ "")
    (hex : env.pathExists p = true) (hfile : env.pathIsFile p = true)
    (hext : lowerStr (pathSuffix p) ∉ SUPPORTED_FORMATS) :
    process env cache p od =
      ({ status := "error",
         error := some ("Unsupported format: " ++ lowerStr (pathSuffix p)) }, [], cache) :=
  process_bad_ext env cache p od hpil hne hex hfile hext

/-- Witness for `C1_unsupported_format` at a concrete input. -/
theorem C1_unsupported_format_witness :
    process envT [] "img.txt" none =
      ({ status := "error",
         error := some ("Unsupported format: " ++ lowerStr (pathSuffix "img.txt")) }, [], []) :=
  C1_unsupported_format envT [] "img.txt" none rfl (by decide) rfl rfl (by decide)

/-- Claim C2: across any sequence of `_get_font` calls the font cache
never exceeds 11 entries (the cap of the source: cleared as soon as its
size passes 10), and whenever the cache holds more than 10 entries and a
new size arrives, the cache is reset to empty before the insertion, so the
result holds exactly the new entry. -/
theorem C2_font_cache_bounded (env : Env) (sizes : List Nat) (cache : FontCache)
    (hc : cache.length ≤ 11) :
    (applyGetFonts env cache sizes).length ≤ 11 ∧
    ∀ c : FontCache, ∀ s : Nat, 10 < c.length → c.lookup s = none →
      (get_font env c s).2 = [(s, env.loadFont s)] := by
  constructor
  · induction sizes generalizing cache with
    | nil => simpa [applyGetFonts] using hc
    | cons s rest ih => exact ih _ (get_font_length_le env cache s hc)
  · intro c s h10 hl
    simp [get_font, hl, h10]

/-- Witness for `C2_font_cache_bounded`: 25 pairwise distinct sizes
starting from the empty cache. -/
theorem C2_font_cache_bounded_witness :
    (applyGetFonts envT [] (List.range 25)).length ≤ 11 ∧
    ∀ c : FontCache, ∀ s : Nat, 10 < c.length → c.lookup s = none →
      (get_font envT c s).2 = [(s, envT.loadFont s)] :=
  C2_font_cache_bounded envT (List.range 25) [] (by decide)

/-- Claim C3: each input validation failure — empty path, missing file,
non-file path, unsupported extension — yields a `"status" = "error"`
result carrying that failure's distinct message (in particular a
file-not-found message for a missing path), with an empty effect trace
(no output file written); the four messages are pairwise distinct.
`process` is a total function of the embedding, so no exception escapes. -/
theorem C3_validation_failures (env : Env) (cache : FontCache) (p : String) (od : Option Json)
    (hpil : env.pilAvailable = true) :
    (p = "" →
      process env cache p od = ({ status := "error", error := some "Empty path" }, [], cache)) ∧
    (p ≠ "" → env.pathExists p = false →
      process env cache p od =
        ({ status := "error", error := some ("File not found: " ++ p) }, [], cache)) ∧
    (p ≠ "" → env.pathExists p = true → env.pathIsFile p = false →
      process env cache p od =
        ({ status := "error", error := some ("Not a file: " ++ p) }, [], cache)) ∧
    (p ≠ "" → env.pathExists p = true → env.pathIsFile p = true →
      lowerStr (pathSuffix p) ∉ SUPPORTED_FORMATS →
      process env cache p od =
        ({ status := "error",
           error := some ("Unsupported format: " ++ lowerStr (pathSuffix p)) }, [], cache)) ∧
    ("Empty path" ≠ "File not found: " ++ p) ∧
    ("Empty path" ≠ "Not a file: " ++ p) ∧
    ("Empty path" ≠ "Unsupported format: " ++ lowerStr (pathSuffix p)) ∧
    ("File not found: " ++ p ≠ "Not a file: " ++ p) ∧
    ("File not found: " ++ p ≠ "Unsupported format: " ++ lowerStr (pathSuffix p)) ∧
    ("Not a file: " ++ p ≠ "Unsupported format: " ++ lowerStr (pathSuffix p)) := by
  refine ⟨?_, ?_, ?_, ?_, ?_, ?_, ?_, ?_, ?_, ?_⟩
  · intro h; subst h; exact process_empty_path env cache od hpil
  · intro hne hex; exact process_not_found env cache p od hpil hne hex
  · intro hne hex hfile; exact process_not_file env cache p od hpil hne hex hfile
  · intro hne hex hfile hext; exact process_bad_ext env cache p od hpil hne hex hfile hext
  · exact ne_of_first_char rfl rfl (by decide)
  · exact ne_of_first_char rfl rfl (by decide)
  · exact ne_of_first_char rfl rfl (by decide)
  · exact ne_of_first_char rfl rfl (by decide)
  · exact ne_of_first_char rfl rfl (by decide)
  · exact ne_of_first_char rfl rfl (by decide)

/-- Witness for `C3_validation_failures` in an environment where no path
exists. -/
theorem C3_validation_failures_witness :
    ("nope.png" = "" →
      process envMissing [] "nope.png" none =
        ({ status := "error", error := some "Empty path" }, [], [])) ∧
    ("nope.png" ≠ "" → envMissing.pathExists "nope.png" = false →
      process envMissing [] "nope.png" none =
        ({ status := "error", error := some ("File not found: " ++ "nope.png") }, [], [])) ∧
    ("nope.png" ≠ "" → envMissing.pathExists "nope.png" = true →
      envMissing.pathIsFile "nope.png" = false →
      process envMissing [] "nope.png" none =
        ({ status := "error", error := some ("Not a file: " ++ "nope.png") }, [], [])) ∧
    ("nope.png" ≠ "" → envMissing.pathExists "nope.png" = true →
      envMissing.pathIsFile "nope.png" = true →
      lowerStr (pathSuffix "nope.png") ∉ SUPPORTED_FORMATS →
      process envMissing [] "nope.png" none =
        ({ status := "error",
           error := some ("Unsupported format: " ++ lowerStr (pathSuffix "nope.png")) },
         [], [])) ∧
    ("Empty path" ≠ "File not found: " ++ "nope.png") ∧
    ("Empty path" ≠ "Not a file: " ++ "nope.png") ∧
    ("Empty path" ≠ "Unsupported format: " ++ lowerStr (pathSuffix "nope.png")) ∧
    ("File not found: " ++ "nope.png" ≠ "Not a file: " ++ "nope.png") ∧
    ("File not found: " ++ "nope.png" ≠ "Unsupported format: " ++ lowerStr (pathSuffix "nope.png")) ∧
    ("Not a file: " ++ "nope.png" ≠ "Unsupported format: " ++ lowerStr (pathSuffix "nope.png")) :=
  C3_validation_failures envMissing [] "nope.png" none rfl

/-- Claim C10: when the (resolved) input source file does not exist,
`build_assets` exits with code 1 before any filesystem mutation: the
returned filesystem is exactly the initial one (no directory created, no
bytecode or archive written) and only the error line is printed. -/
theorem C10_exit_before_mutation (env : BEnv) (fs : BFS) (inputPy outputDir : String)
    (h : fs.exists0 (env.resolve inputPy) = false) :
    build_assets env fs inputPy outputDir =
      (some 1, fs, ["Error: Input file " ++ env.resolve inputPy ++ " does not exist"]) := by
  simp [build_assets, h]

/-- Witness for `C10_exit_before_mutation` on the empty filesystem. -/
theorem C10_exit_before_mutation_witness :
    build_assets benvT bfs0 "m.py" "out" =
      (some 1, bfs0, ["Error: Input file " ++ benvT.resolve "m.py" ++ " does not exist"]) :=
  C10_exit_before_mutation benvT bfs0 "m.py" "out" rfl

/-- `String.append` acts as append on the character data. -/
lemma str_data_append (a b : String) : (a ++ b).data = a.data ++ b.data := rfl

/-- `padDigits` always renders exactly `w` characters. -/
lemma padDigits_length (w : Nat) : ∀ n, (padDigits w n).length = w := by
  induction w with
  | zero => intro n; rfl
  | succ w ih => intro n; simp [padDigits, ih]

/-- `Nat.digitChar` of a value below ten is a decimal digit. -/
lemma digitChar_isDigit : ∀ x : Fin 10, (Nat.digitChar x.val).isDigit := by decide

/-- Every character `padDigits` renders is a decimal digit. -/
lemma padDigits_digits (w : Nat) : ∀ n, allDigits (padDigits w n) := by
  induction w with
  | zero => intro n c hc; simp [padDigits] at hc
  | succ w ih =>
    intro n c hc
    simp only [padDigits, List.mem_append, List.mem_singleton] at hc
    rcases hc with hc | hc
    · exact ih (n / 10) c hc
    · subst hc
      exact digitChar_isDigit ⟨n % 10, Nat.mod_lt _ (by norm_num)⟩

/-- Concatenation preserves `allDigits`. -/
lemma allDigits_append {a b : List Char} (ha : allDigits a) (hb : allDigits b) :
    allDigits (a ++ b) := by
  intro c hc
  rcases List.mem_append.mp hc with h | h
  · exact ha c h
  · exact hb c h

/-- `Nat.digitChar` is injective below ten. -/
lemma digitChar_inj10 : ∀ x y : Fin 10, Nat.digitChar x.val = Nat.digitChar y.val → x = y := by
  decide

/-- `padDigits w` is injective on values below `10 ^ w`. -/
lemma padDigits_inj : ∀ w a b : Nat, a < 10 ^ w → b < 10 ^ w →
    padDigits w a = padDigits w b → a = b := by
  intro w
  induction w with
  | zero =>
    intro a b ha hb _
    simp only [pow_zero, Nat.lt_one_iff] at ha hb
    omega
  | succ w ih =>
    intro a b ha hb h
    simp only [padDigits] at h
    obtain ⟨h1, h2⟩ := List.append_inj h (by simp [padDigits_length])
    have hpow : (10 : Nat) ^ (w + 1) = 10 ^ w * 10 := pow_succ 10 w
    rw [hpow] at ha hb
    have hda : a / 10 < 10 ^ w := (Nat.div_lt_iff_lt_mul (by norm_num)).mpr ha
    have hdb : b / 10 < 10 ^ w := (Nat.div_lt_iff_lt_mul (by norm_num)).mpr hb
    have hq : a / 10 = b / 10 := ih (a / 10) (b / 10) hda hdb h1
    have hcc : Nat.digitChar (a % 10) = Nat.digitChar (b % 10) := (List.cons.inj h2).1
    have hr : a % 10 = b % 10 := by
      have hfin := digitChar_inj10 ⟨a % 10, Nat.mod_lt _ (by norm_num)⟩
        ⟨b % 10, Nat.mod_lt _ (by norm_num)⟩ hcc
      exact congrArg Fin.val hfin
    omega

/-- The `strftime` timestamp determines the calendar fields for in-range
values (all zero-padded fixed-width blocks). -/
lemma strftimeTs_inj (t1 t2 : DateTime) (h1 : t1.wf) (h2 : t2.wf)
    (h : strftimeTs t1 = strftimeTs t2) : t1 = t2 := by
  obtain ⟨hy1, hmo1, hd1, hh1, hmi1, hs1, hus1⟩ := h1
  obtain ⟨hy2, hmo2, hd2, hh2, hmi2, hs2, hus2⟩ := h2
  have hd : (strftimeTs t1).data = (strftimeTs t2).data := by rw [h]
  simp only [strftimeTs] at hd
  obtain ⟨eDate, hd⟩ := List.append_inj hd (by simp [padDigits_length])
  have hd := (List.cons.inj hd).2
  obtain ⟨eTime, hd⟩ := List.append_inj hd (by simp [padDigits_length])
  have e7 := (List.cons.inj hd).2
  obtain ⟨eYM, e3⟩ := List.append_inj eDate (by simp [padDigits_length])
  obtain ⟨e1, e2⟩ := List.append_inj eYM (by simp [padDigits_length])
  obtain ⟨eHM, e6⟩ := List.append_inj eTime (by simp [padDigits_length])
  obtain ⟨e4, e5⟩ := List.append_inj eHM (by simp [padDigits_length])
  ext
  · exact padDigits_inj 4 _ _ (by simpa using hy1) (by simpa using hy2) e1
  · exact padDigits_inj 2 _ _ (by simpa using hmo1) (by simpa using hmo2) e2
  · exact padDigits_inj 2 _ _ (by simpa using hd1) (by simpa using hd2) e3
  · exact padDigits_inj 2 _ _ (by simpa using hh1) (by simpa using hh2) e4
  · exact padDigits_inj 2 _ _ (by simpa using hmi1) (by simpa using hmi2) e5
  · exact padDigits_inj 2 _ _ (by simpa using hs1) (by simpa using hs2) e6
  · exact padDigits_inj 6 _ _ (by simpa using hus1) (by simpa using hus2) e7

/-- Claim C4: whenever the pipeline body raises, `process` returns the
error dictionary built in its single top-level handler: status `"error"`,
the error field `"Processing failed: " + str(e)` (so it contains the
exception's string form), and the error-type field `type(e).__name__`.
`process` is a total function of the embedding, so nothing propagates. -/
theorem C4_exception_caught (env : Env) (cache : FontCache) (p : String) (od : Option Json)
    (e : PyExc) (hpil : env.pilAvailable = true)
    (hval : (validate_input env p).1 = true)
    (hrun : (runPipeline env cache p od).1 = .error e) :
    (process env cache p od).1 =
      { status := "error", error := some ("Processing failed: " ++ e.msg),
        errorType := some e.name } ∧
    ∃ pre, (process env cache p od).1.error = some (pre ++ e.msg) := by
  rcases hvp : validate_input env p with ⟨ok, m⟩
  rw [hvp] at hval
  simp at hval
  subst hval
  rcases hrp : runPipeline env cache p od with ⟨res, ev, c1⟩
  rw [hrp] at hrun
  simp at hrun
  subst hrun
  constructor
  · simp [process, hpil, hvp, hrp]
  · exact ⟨"Processing failed: ", by simp [process, hpil, hvp, hrp]⟩

/-- Witness for `C4_exception_caught`: `Image.open` raises. -/
theorem C4_exception_caught_witness :
    (process envOpenFail [] "a.png" none).1 =
      { status := "error",
        error := some ("Processing failed: " ++ "cannot identify image file"),
        errorType := some "UnidentifiedImageError" } ∧
    ∃ pre, (process envOpenFail [] "a.png" none).1.error =
      some (pre ++ "cannot identify image file") :=
  C4_exception_caught envOpenFail [] "a.png" none
    ⟨"UnidentifiedImageError", "cannot identify image file"⟩ rfl rfl rfl

/-- Claim C7: when directory creation succeeds, the generated output path
is exactly the chosen directory (the caller's, or the default temporary
directory) joined with a file name of the spec's shape
`processed_<stem>_<YYYYMMDD_HHMMSS_microseconds>.png`. -/
theorem C7_output_path_shape (env : Env) (p : String) (odirS : Option String)
    (hmk : env.makedirs (odirS.getD env.tmpdir) = none) :
    generate_output_path env p (odirS.map Json.str) =
      (.ok (joinPath (odirS.getD env.tmpdir) (outputName p env.now)),
       [Event.madeDirs (odirS.getD env.tmpdir)]) ∧
    joinPath (odirS.getD env.tmpdir) (outputName p env.now) =
      (odirS.getD env.tmpdir) ++ "/" ++ outputName p env.now ∧
    specOutputName (pathStem p) (outputName p env.now) := by
  refine ⟨?_, rfl, ?_⟩
  · cases odirS with
    | none =>
      simp only [Option.getD_none] at hmk
      simp [generate_output_path, hmk]
    | some d =>
      simp only [Option.getD_some] at hmk
      simp [generate_output_path, hmk]
  · refine ⟨padDigits 4 env.now.year ++ padDigits 2 env.now.month ++ padDigits 2 env.now.day,
      padDigits 2 env.now.hour ++ padDigits 2 env.now.minute ++ padDigits 2 env.now.second,
      padDigits 6 env.now.micro, ?_, ?_, ?_, ?_, ?_, ?_, ?_⟩
    · simp [padDigits_length]
    · simp [padDigits_length]
    · simp [padDigits_length]
    · exact allDigits_append (allDigits_append (padDigits_digits 4 _) (padDigits_digits 2 _))
        (padDigits_digits 2 _)
    · exact allDigits_append (allDigits_append (padDigits_digits 2 _) (padDigits_digits 2 _))
        (padDigits_digits 2 _)
    · exact padDigits_digits 6 _
    · simp [outputName, strftimeTs, str_data_append, List.append_assoc]

/-- Witness for `C7_output_path_shape` with an explicit output directory. -/
theorem C7_output_path_shape_witness :
    generate_output_path envT "photos/cat.jpg" ((some "out").map Json.str) =
      (.ok (joinPath ((some "out").getD envT.tmpdir) (outputName "photos/cat.jpg" envT.now)),
       [Event.madeDirs ((some "out").getD envT.tmpdir)]) ∧
    joinPath ((some "out").getD envT.tmpdir) (outputName "photos/cat.jpg" envT.now) =
      ((some "out").getD envT.tmpdir) ++ "/" ++ outputName "photos/cat.jpg" envT.now ∧
    specOutputName (pathStem "photos/cat.jpg") (outputName "photos/cat.jpg" envT.now) :=
  C7_output_path_shape envT "photos/cat.jpg" (some "out") rfl

/-- Claim C8: two invocations on the same input whose `datetime.now()`
readings differ (at any field, down to microsecond granularity) generate
distinct output file names. -/
theorem C8_distinct_filenames (p : String) (t1 t2 : DateTime)
    (h1 : t1.wf) (h2 : t2.wf) (hne : t1 ≠ t2) :
    outputName p t1 ≠ outputName p t2 := by
  intro h
  apply hne
  apply strftimeTs_inj t1 t2 h1 h2
  have hd : (outputName p t1).data = (outputName p t2).data := by rw [h]
  simp only [outputName, str_data_append] at hd
  have hd := List.append_cancel_right hd
  have hd := List.append_cancel_left hd
  exact congrArg String.mk hd

/-- Witness for `C8_distinct_filenames`: timestamps one microsecond apart. -/
theorem C8_distinct_filenames_witness :
    outputName "a.png" ⟨2026, 10, 12, 13, 14, 15, 123456⟩ ≠
      outputName "a.png" ⟨2026, 10, 12, 13, 14, 15, 123457⟩ :=
  C8_distinct_filenames "a.png" ⟨2026, 10, 12, 13, 14, 15, 123456⟩
    ⟨2026, 10, 12, 13, 14, 15, 123457⟩ (by simp [DateTime.wf]) (by simp [DateTime.wf])
    (by decide)

/-- A successful enhancement/filter call contributes exactly its own
event. -/
lemma filterStep_ok {env : Env} {op : LibOp} {img i : Img} {ev : List Event}
    (h : filterStep env op img = (.ok i, ev)) : ev = [Event.applied op] := by
  simp only [filterStep] at h
  cases ha : env.applyLib op img with
  | error e => rw [ha] at h; simp at h
  | ok j => rw [ha] at h; simp at h; exact h.2.symm

/-- A successful conversion step contributes no event (already RGB), a
white-composite event, or a convert event. -/
lemma convertStep_ok {env : Env} {img i : Img} {ev : List Event}
    (h : convertStep env img = (.ok i, ev)) :
    ev = [] ∨ (∃ m, ev = [Event.applied (.compositeWhite m)]) ∨
      ev = [Event.applied .convertRGB] := by
  simp only [convertStep] at h
  split at h
  · cases ha : env.applyLib (.compositeWhite img.mode) img with
    | error e => rw [ha] at h; simp at h
    | ok j =>
      rw [ha] at h
      simp at h
      exact Or.inr (Or.inl ⟨img.mode, h.2.symm⟩)
  · split at h
    · cases ha : env.applyLib .convertRGB img with
      | error e => rw [ha] at h; simp at h
      | ok j =>
        rw [ha] at h
        simp at h
        exact Or.inr (Or.inr h.2.symm)
    · simp at h
      exact Or.inl h.2

/-- A successful path generation makes exactly one directory and returns
the join of that directory with the generated name. -/
lemma generate_output_path_ok {env : Env} {p : String} {od : Option Json}
    {out : String} {gev : List Event}
    (h : generate_output_path env p od = (.ok out, gev)) :
    ∃ d, gev = [Event.madeDirs d] ∧ out = joinPath d (outputName p env.now) := by
  simp only [generate_output_path] at h
  split at h
  · simp at h
  · rename_i dir heq
    cases hm : env.makedirs dir with
    | some e => rw [hm] at h; simp at h
    | none =>
      rw [hm] at h
      simp at h
      exact ⟨dir, h.2.symm, h.1.symm⟩

/-- Trace shape of a successful pipeline run: open, optional conversion,
the four enhancement operations in their fixed order, text measurement,
shadow then main text, directory creation, save as PNG. -/
lemma runPipeline_ok_trace (env : Env) (cache : FontCache) (p : String) (od : Option Json)
    (r : PResult) (ev : List Event) (c1 : FontCache)
    (h : runPipeline env cache p od = (.ok r, ev, c1)) :
    ∃ conv fs d out,
      ev = Event.opened p :: (conv ++
        [Event.applied .sharpness, Event.applied .edgeEnhance, Event.applied .contrast,
         Event.applied .smooth, Event.measuredText watermark fs,
         Event.drewShadow watermark (0, 0, 0), Event.drewMain watermark (255, 0, 0),
         Event.madeDirs d, Event.saved out "PNG"]) ∧
      (conv = [] ∨ (∃ m, conv = [Event.applied (.compositeWhite m)]) ∨
        conv = [Event.applied .convertRGB]) := by
  unfold runPipeline at h
  cases ho : env.openImage p with
  | error e => simp only [ho] at h; simp at h
  | ok img0 =>
  simp only [ho] at h
  rcases hc : convertStep env img0 with ⟨cres, cev⟩
  cases cres with
  | error e => simp only [hc] at h; simp at h
  | ok img1 =>
  simp only [hc] at h
  rcases h2 : filterStep env .sharpness img1 with ⟨r2, ev2⟩
  cases r2 with
  | error e => simp only [h2] at h; simp at h
  | ok img2 =>
  simp only [h2] at h
  rcases h3 : filterStep env .edgeEnhance img2 with ⟨r3, ev3⟩
  cases r3 with
  | error e => simp only [h3] at h; simp at h
  | ok img3 =>
  simp only [h3] at h
  rcases h4 : filterStep env .contrast img3 with ⟨r4, ev4⟩
  cases r4 with
  | error e => simp only [h4] at h; simp at h
  | ok img4 =>
  simp only [h4] at h
  rcases h5 : filterStep env .smooth img4 with ⟨r5, ev5⟩
  cases r5 with
  | error e => simp only [h5] at h; simp at h
  | ok img5 =>
  simp only [h5] at h
  rcases hf : get_font env cache (fontSizeFor img5.height) with ⟨font, cacheA⟩
  simp only [hf] at h
  cases hb : env.textbbox watermark font img5 with
  | error e => simp only [hb] at h; simp at h
  | ok bb =>
  rcases bb with ⟨b0, b1, b2, b3⟩
  simp only [hb] at h
  split at h
  · simp at h
  · split at h
    · simp at h
    · rcases hg : generate_output_path env p od with ⟨gres, gev⟩
      cases gres with
      | error e => simp only [hg] at h; simp at h
      | ok outPath =>
      simp only [hg] at h
      cases hsv : env.save outPath "PNG" with
      | some e => simp only [hsv] at h; simp at h
      | none =>
      simp only [hsv] at h
      cases hgs : env.getsize outPath with
      | error e => simp only [hgs] at h; simp at h
      | ok sz =>
      simp only [hgs] at h
      simp only [Prod.mk.injEq, Except.ok.injEq] at h
      obtain ⟨d, hgev, hout⟩ := generate_output_path_ok hg
      refine ⟨cev, fontSizeFor img5.height, d, outPath, ?_, convertStep_ok hc⟩
      rw [← h.2.1, filterStep_ok h2, filterStep_ok h3, filterStep_ok h4, filterStep_ok h5, hgev]
      simp [List.append_assoc]

/-- Claim C5: on any invocation whose result status is `"success"`, the
effect trace is: open, optional RGB normalization, then the sharpening
enhancement, the edge-enhancement filter, the contrast enhancement and
the smoothing filter, in this fixed order, and only afterwards the
shadowed text label (shadow then red main text) and the save as PNG. -/
theorem C5_fixed_order (env : Env) (cache : FontCache) (p : String) (od : Option Json)
    (hok : ((process env cache p od).1).status = "success") :
    ∃ conv fs d out,
      (process env cache p od).2.1 =
        Event.opened p :: (conv ++
          [Event.applied .sharpness, Event.applied .edgeEnhance, Event.applied .contrast,
           Event.applied .smooth, Event.measuredText watermark fs,
           Event.drewShadow watermark (0, 0, 0), Event.drewMain watermark (255, 0, 0),
           Event.madeDirs d, Event.saved out "PNG"]) ∧
      (conv = [] ∨ (∃ m, conv = [Event.applied (.compositeWhite m)]) ∨
        conv = [Event.applied .convertRGB]) := by
  by_cases hp : env.pilAvailable = false
  · exfalso
    simp [process, hp] at hok
  · rcases hv : validate_input env p with ⟨ok, m⟩
    cases ok with
    | false =>
      exfalso
      simp [process, hp, hv] at hok
    | true =>
      rcases hr : runPipeline env cache p od with ⟨res, ev, c1⟩
      cases res with
      | error e =>
        exfalso
        simp [process, hp, hv, hr] at hok
      | ok r =>
        obtain ⟨conv, fs, d, out, hev, hconv⟩ := runPipeline_ok_trace env cache p od r ev c1 hr
        refine ⟨conv, fs, d, out, ?_, hconv⟩
        simp [process, hp, hv, hr, hev]

/-- Witness for `C5_fixed_order`: the all-success environment. -/
theorem C5_fixed_order_witness :
    ∃ conv fs d out,
      (process envT [] "a.png" none).2.1 =
        Event.opened "a.png" :: (conv ++
          [Event.applied .sharpness, Event.applied .edgeEnhance, Event.applied .contrast,
           Event.applied .smooth, Event.measuredText watermark fs,
           Event.drewShadow watermark (0, 0, 0), Event.drewMain watermark (255, 0, 0),
           Event.madeDirs d, Event.saved out "PNG"]) ∧
      (conv = [] ∨ (∃ m, conv = [Event.applied (.compositeWhite m)]) ∨
        conv = [Event.applied .convertRGB]) :=
  C5_fixed_order envT [] "a.png" none rfl

/-- After `insertNew` the path is present. -/
lemma insertNew_mem (p : String) (l : List String) : p ∈ insertNew p l := by
  unfold insertNew
  split <;> simp_all

/-- Claim C6: packaging a valid, compilable source file into a filesystem
with no archives yet returns normally and leaves exactly one archive,
`app_modules.zip` in the output directory, holding exactly the one entry
`image_processor.pyc`; the intermediate compiled file is gone from disk;
the printed lines end with the success message.  On a missing input, and
on a compilation error, the run exits with code 1 after printing a
message. -/
theorem C6_build_assets_package (env : BEnv) (fs : BFS) (inputPy outputDir : String)
    (hin : fs.exists0 (env.resolve inputPy) = true)
    (hcomp : env.compileResult (env.resolve inputPy) = none)
    (hz : fs.zips = []) :
    (build_assets env fs inputPy outputDir).1 = none ∧
    (build_assets env fs inputPy outputDir).2.1.zips =
      [(env.resolve outputDir ++ "/app_modules.zip", ["image_processor.pyc"])] ∧
    (env.resolve outputDir ++ "/" ++ "image_processor.pyc") ∉
      (build_assets env fs inputPy outputDir).2.1.files ∧
    (build_assets env fs inputPy outputDir).2.2 =
      ["Compiling " ++ env.resolve inputPy ++ " -> " ++
         (env.resolve outputDir ++ "/" ++ "image_processor.pyc") ++ "...",
       "Creating " ++ (env.resolve outputDir ++ "/app_modules.zip") ++ "...",
       "Success! Created app_modules.zip"] ∧
    (∀ fs2 : BFS, fs2.exists0 (env.resolve inputPy) = false →
      (build_assets env fs2 inputPy outputDir).1 = some 1 ∧
      (build_assets env fs2 inputPy outputDir).2.2 =
        ["Error: Input file " ++ env.resolve inputPy ++ " does not exist"]) ∧
    (∀ env3 : BEnv, ∀ fs3 : BFS, ∀ msg : String,
      fs3.exists0 (env3.resolve inputPy) = true →
      env3.compileResult (env3.resolve inputPy) = some msg →
      (build_assets env3 fs3 inputPy outputDir).1 = some 1 ∧
      (build_assets env3 fs3 inputPy outputDir).2.2 =
        ["Compiling " ++ env3.resolve inputPy ++ " -> " ++
           (env3.resolve outputDir ++ "/" ++ "image_processor.pyc") ++ "...",
         "Compilation failed: " ++ msg]) := by
  refine ⟨?_, ?_, ?_, ?_, ?_, ?_⟩
  · simp [build_assets, hin, hcomp]
  · simp [build_assets, hin, hcomp, hz, insertNew_mem]
  · simp [build_assets, hin, hcomp, insertNew_mem, List.mem_filter]
  · simp [build_assets, hin, hcomp]
  · intro fs2 h2
    constructor
    · simp [build_assets, h2]
    · simp [build_assets, h2]
  · intro env3 fs3 msg h3 hc3
    constructor
    · simp [build_assets, h3, hc3]
    · simp [build_assets, h3, hc3]

/-- Witness for `C6_build_assets_package` on a one-file filesystem. -/
theorem C6_build_assets_package_witness :
    (build_assets benvT bfsT "m.py" "out").1 = none ∧
    (build_assets benvT bfsT "m.py" "out").2.1.zips =
      [(benvT.resolve "out" ++ "/app_modules.zip", ["image_processor.pyc"])] ∧
    (benvT.resolve "out" ++ "/" ++ "image_processor.pyc") ∉
      (build_assets benvT bfsT "m.py" "out").2.1.files ∧
    (build_assets benvT bfsT "m.py" "out").2.2 =
      ["Compiling " ++ benvT.resolve "m.py" ++ " -> " ++
         (benvT.resolve "out" ++ "/" ++ "image_processor.pyc") ++ "...",
       "Creating " ++ (benvT.resolve "out" ++ "/app_modules.zip") ++ "...",
       "Success! Created app_modules.zip"] ∧
    (∀ fs2 : BFS, fs2.exists0 (benvT.resolve "m.py") = false →
      (build_assets benvT fs2 "m.py" "out").1 = some 1 ∧
      (build_assets benvT fs2 "m.py" "out").2.2 =
        ["Error: Input file " ++ benvT.resolve "m.py" ++ " does not exist"]) ∧
    (∀ env3 : BEnv, ∀ fs3 : BFS, ∀ msg : String,
      fs3.exists0 (env3.resolve "m.py") = true →
      env3.compileResult (env3.resolve "m.py") = some msg →
      (build_assets env3 fs3 "m.py" "out").1 = some 1 ∧
      (build_assets env3 fs3 "m.py" "out").2.2 =
        ["Compiling " ++ env3.resolve "m.py" ++ " -> " ++
           (env3.resolve "out" ++ "/" ++ "image_processor.pyc") ++ "...",
         "Compilation failed: " ++ msg]) :=
  C6_build_assets_package benvT bfsT "m.py" "out" rfl rfl rfl

/-- Claim C9, counterexample: a JSON object whose `input_image_path` is a
(truthy) JSON list makes `process_image_json` raise a `TypeError`
(`os.path.exists` rejects the list before the `try` block is entered), so
it does not return a response at all. -/
theorem C9_counterexample :
    (process_image_json envT []
        [("input_image_path", Json.arr [Json.str "x"])]).result =
      .error ⟨"TypeError",
        "stat: path should be string, bytes, os.PathLike or integer, not list"⟩ :=
  rfl

/-- Claim C9, amended: for every JSON object whose `input_image_path`
field is absent or a string, `process_image_json` returns (never raises) a
JSON object carrying a `"status"` field; when the field is absent or the
empty string it returns the `"Missing input_image_path"` error object
without invoking the processor. -/
theorem C9_json_entry (env : Env) (cache : FontCache) (data : List (String × Json))
    (hfield : dictGet data "input_image_path" = none ∨
      ∃ s : String, dictGet data "input_image_path" = some (Json.str s)) :
    (∃ j : Json, (process_image_json env cache data).result = .ok j ∧
      hasStatusField j = true) ∧
    ((dictGet data "input_image_path" = none ∨
        dictGet data "input_image_path" = some (Json.str "")) →
      (process_image_json env cache data).result =
        .ok (Json.obj [("status", Json.str "error"),
                       ("error", Json.str "Missing input_image_path")]) ∧
      (process_image_json env cache data).invokedProcessor = false) := by
  have hstat : ∀ r : PResult, hasStatusField (presultToJson r) = true := fun r => rfl
  rcases hfield with hnone | ⟨s, hsome⟩
  · refine ⟨⟨Json.obj [("status", Json.str "error"),
        ("error", Json.str "Missing input_image_path")], ?_, rfl⟩, fun _ => ⟨?_, ?_⟩⟩
    · simp [process_image_json, hnone]
    · simp [process_image_json, hnone]
    · simp [process_image_json, hnone]
  · by_cases hs : s = ""
    · subst hs
      refine ⟨⟨Json.obj [("status", Json.str "error"),
          ("error", Json.str "Missing input_image_path")], ?_, rfl⟩, fun _ => ⟨?_, ?_⟩⟩
      · simp [process_image_json, hsome, Json.truthy]
      · simp [process_image_json, hsome, Json.truthy]
      · simp [process_image_json, hsome, Json.truthy]
    · have ht : (Json.str s).truthy = true := by simp [Json.truthy, hs]
      constructor
      · have hres : (process_image_json env cache data).result =
            .ok (presultToJson (process env cache s
              (match dictGet data "output_dir" with
               | none => none
               | some Json.null => none
               | some w => some w)).1) := by
          simp only [process_image_json, hsome, ht]
          rfl
        exact ⟨_, hres, hstat _⟩
      · intro hcontra
        rcases hcontra with hno | hemp
        · rw [hsome] at hno
          exact absurd hno (by simp)
        · rw [hsome] at hemp
          exact absurd (Json.str.inj (Option.some.inj hemp)) hs

/-- Witness for `C9_json_entry`: the empty-string path field. -/
theorem C9_json_entry_witness :
    (∃ j : Json, (process_image_json envT [] [("input_image_path", Json.str "")]).result =
        .ok j ∧ hasStatusField j = true) ∧
    ((dictGet [("input_image_path", Json.str "")] "input_image_path" = none ∨
        dictGet [("input_image_path", Json.str "")] "input_image_path" =
          some (Json.str "")) →
      (process_image_json envT [] [("input_image_path", Json.str "")]).result =
        .ok (Json.obj [("status", Json.str "error"),
                       ("error", Json.str "Missing input_image_path")]) ∧
      (process_image_json envT [] [("input_image_path", Json.str "")]).invokedProcessor =
        false) :=
  C9_json_entry envT [] [("input_image_path", Json.str "")] (Or.inr ⟨"", rfl⟩)

end PlanterPressure
